import Mathlib

/-!
Shallow embedding of the vkw capability/version negotiation subsystem:
`ApiVersion` ordering, the error taxonomy (`Exception.hpp`,
`SymbolTable.hpp`, `Library.hpp`), the static name <-> dense-ID tables of
`Library`, instance create-info compilation (`Instance.hpp`), the
versioned core-symbol walk, extension/layer accessors, physical-device
extension enumeration, the `Unique<T>` ownership state machine and the
error-reporting modes of `postError`/`irrecoverableError`.

The generated headers `SymbolTable.inc` / `LayerMap.inc` (extension and
layer name tables, the list of defined core versions) are produced by
scripts from the Vulkan registry and are not part of the checked sources;
definitions here therefore take the name tables and the version chain as
explicit parameters.
-/

namespace Vkw

/-- `vkw::ApiVersion`: (major, minor, revision) with the defaulted
`operator<=>`, i.e. lexicographic comparison. -/
structure ApiVersion where
  major : Nat
  minor : Nat
  revision : Nat
deriving DecidableEq, Repr

namespace ApiVersion

/-- Lexicographic strict order, as generated by the defaulted C++
three-way comparison over the three fields in declaration order. -/
def lt (a b : ApiVersion) : Bool :=
  a.major < b.major ||
    (a.major == b.major &&
      (a.minor < b.minor ||
        (a.minor == b.minor && a.revision < b.revision)))

/-- Lexicographic non-strict order. -/
def le (a b : ApiVersion) : Bool :=
  lt a b || a == b

theorem lt_iff (a b : ApiVersion) :
    lt a b = true ↔
      a.major < b.major ∨
        (a.major = b.major ∧
          (a.minor < b.minor ∨ (a.minor = b.minor ∧ a.revision < b.revision))) := by
  simp [lt]

theorem le_iff (a b : ApiVersion) :
    le a b = true ↔ lt a b = true ∨ a = b := by
  simp only [le, Bool.or_eq_true, beq_iff_eq]

theorem not_lt_iff_le (a b : ApiVersion) :
    lt a b = false ↔ le b a = true := by
  rcases a with ⟨am, an, ar⟩
  rcases b with ⟨bm, bn, br⟩
  simp only [lt, le, Bool.or_eq_false_iff, Bool.and_eq_false_iff,
    Bool.or_eq_true, Bool.and_eq_true, beq_iff_eq, beq_eq_false_iff_ne,
    decide_eq_false_iff_not, decide_eq_true_eq, ApiVersion.mk.injEq, ne_eq]
  omega
end ApiVersion

/-- The vkw error taxonomy. Every error class in the sources derives from
`vkw::Error` and carries the payload shown here:
`ApiVersionUnsupported` (last supported + unsupported version),
`SymbolsMissing` (loaded + requested version),
`ExtensionUnsupported`/`ExtensionMissing` (dense ID + canonical name),
`LayerUnsupported`/`LayerMissing` (dense ID + canonical name),
`ExtensionNameError`/`LayerNameError` (the offending string),
`VulkanError` (a native status code). -/
inductive VkwError where
  | apiVersionUnsupported (lastSupported unsupported : ApiVersion)
  | symbolsMissing (loaded requested : ApiVersion)
  | extensionUnsupported (id : Nat) (name : String)
  | extensionMissing (id : Nat) (name : String)
  | layerUnsupported (id : Nat) (name : String)
  | layerMissing (id : Nat) (name : String)
  | extensionNameError (name : String)
  | layerNameError (name : String)
  | vulkanError (result : Int)
deriving DecidableEq, Repr

/-- `Error::codeString()`: the stable per-class code string, a constant of
each error class independent of the payload. -/
def VkwError.codeString : VkwError → String
  | .apiVersionUnsupported _ _ => "API version unsupported"
  | .symbolsMissing _ _ => "Symbols missing"
  | .extensionUnsupported _ _ => "Extension unsupported"
  | .extensionMissing _ _ => "Extension missing"
  | .layerUnsupported _ _ => "Layer unsupported"
  | .layerMissing _ _ => "Layer missing"
  | .extensionNameError _ => "Bad extension name"
  | .layerNameError _ => "Bad layer name"
  | .vulkanError _ => "Vulkan error"

/-! ## Static name tables (`Library` statics)

Dense IDs (`vkw::ext`, `vkw::layer`) are indices into the generated
constant arrays `ExtensionNames` / `LayerNames`; the table contents are
generated from the Vulkan registry and are passed here as a parameter
`names : List String`. -/

/-- `Library::ExtensionName` / `Library::LayerName`: direct index into the
static name array (the source asserts the index is in range). -/
def idToName (names : List String) (id : Nat) : String :=
  names.getD id ""

/-- `Library::ExtensionId` / `Library::LayerId`: `std::find_if` over the
static name array returns the first matching position; an exhausted search
posts the corresponding name error. -/
def nameToId (mkErr : String → VkwError) (names : List String)
    (name : String) : Except VkwError Nat :=
  match names.findIdx? (fun entry => entry == name) with
  | some i => .ok i
  | none => .error (mkErr name)

/-- `Library::ValidExtensionName` / `Library::ValidLayerName`: whether the
search over the static name array finds an entry. -/
def validName (names : List String) (name : String) : Bool :=
  names.contains name

theorem findIdx?_getD_of_nodup (names : List String) (id : Nat)
    (hnd : names.Nodup) (hid : id < names.length) :
    names.findIdx? (fun entry => entry == names.getD id "") = some id := by
  induction names generalizing id with
  | nil => simp at hid
  | cons hd tl ih =>
    cases id with
    | zero => simp [List.findIdx?_cons]
    | succ n =>
      have hnd' : tl.Nodup := hnd.of_cons
      have hne : hd ∉ tl := (List.nodup_cons.mp hnd).1
      have hn : n < tl.length := by simpa using hid
      have hmem : tl.getD n "" ∈ tl := by
        rw [List.getD_eq_getElem tl "" hn]
        exact tl.getElem_mem hn
      have hhd : (hd == List.getD tl n "") = false := by
        simp only [beq_eq_false_iff_ne, ne_eq]
        intro h
        exact hne (h ▸ hmem)
      rw [List.getD_cons_succ, List.findIdx?_cons, hhd,
        if_neg Bool.false_ne_true, List.findIdx?_succ, ih n hnd' hn]
      rfl

theorem findIdx?_eq_none_of_not_mem (names : List String) (name : String)
    (h : name ∉ names) :
    names.findIdx? (fun entry => entry == name) = none := by
  rw [List.findIdx?_eq_none_iff]
  intro x hx
  simp only [beq_eq_false_iff_ne, ne_eq]
  intro he
  exact h (he ▸ hx)

/-! ## Library runtime state and instance negotiation (`Library.hpp`, `Instance.hpp`) -/

/-- The runtime-advertised state a `vkw::Library` gathers at construction:
the loader's instance API version (`instanceAPIVersion()`), the enumerated
layer names (`m_layer_properties`) and the enumerated instance-level
extension names (`m_instance_extension_properties`). -/
structure Library where
  advertisedVersion : ApiVersion
  layerProperties : List String
  instanceExtensionProperties : List String
deriving DecidableEq, Repr

/-- `Library::hasLayer`: `any_of` over the enumerated layer properties
comparing with the canonical name of `id`. -/
def Library.hasLayer (layerNames : List String) (lib : Library) (id : Nat) : Bool :=
  lib.layerProperties.contains (idToName layerNames id)

/-- `Library::hasInstanceExtension`: `any_of` over the enumerated
instance extension properties comparing with the canonical name of `id`. -/
def Library.hasInstanceExtension (extNames : List String) (lib : Library)
    (id : Nat) : Bool :=
  lib.instanceExtensionProperties.contains (idToName extNames id)

/-- `vkw::InstanceCreateInfo`: the caller's request. `requestExtension` /
`requestLayer` are plain `push_back`s, so the lists may contain
duplicates; `apiVersion` defaults to `{1,0,0}`. -/
structure InstanceCreateInfo where
  requestedExtensions : List Nat := []
  requestedLayers : List Nat := []
  apiVersion : ApiVersion := ⟨1, 0, 0⟩
deriving DecidableEq, Repr

/-- The name arrays a `CompiledInstanceCreateInfo` hands to the native
`vkCreateInstance` call (`ppEnabledExtensionNames` /
`ppEnabledLayerNames`), plus the requested `apiVersion` recorded in
`appInfo`. -/
structure CompiledInstanceCreateInfo where
  reqExtensionsNames : List String
  reqLayerNames : List String
  apiVersion : ApiVersion
deriving DecidableEq, Repr

/-- The `for_each`-with-`postError` validation loops of
`CompiledInstanceCreateInfo`: the first requested id failing `check`
aborts with `mkErr id`. -/
def checkAllRequested (check : Nat → Bool) (mkErr : Nat → VkwError) :
    List Nat → Except VkwError Unit
  | [] => .ok ()
  | id :: rest =>
    if check id then checkAllRequested check mkErr rest
    else .error (mkErr id)

/-- The working copy `requestedExtensions` of
`CompiledInstanceCreateInfo::CompiledInstanceCreateInfo` after the
auto-enable step: the caller's request with
`ext::KHR_get_physical_device_properties2` appended when the extension is
supported and `none_of` the requested ids equals it. -/
def augmentedRequestedExtensions (extNames : List String) (gpdp2 : Nat)
    (lib : Library) (ci : InstanceCreateInfo) : List Nat :=
  if lib.hasInstanceExtension extNames gpdp2 &&
      !(ci.requestedExtensions.contains gpdp2) then
    ci.requestedExtensions ++ [gpdp2]
  else
    ci.requestedExtensions

/-- `CompiledInstanceCreateInfo::CompiledInstanceCreateInfo`: reject a
requested version above the advertised one; reject (in request order) any
requested layer or extension absent from the advertised sets; additively
append `ext::KHR_get_physical_device_properties2` when it is supported and
not already requested; translate the resulting id lists to name arrays. -/
def compileInstanceCreateInfo (extNames layerNames : List String)
    (gpdp2 : Nat) (lib : Library) (ci : InstanceCreateInfo) :
    Except VkwError CompiledInstanceCreateInfo :=
  if ApiVersion.lt lib.advertisedVersion ci.apiVersion then
    .error (.apiVersionUnsupported lib.advertisedVersion ci.apiVersion)
  else
    match checkAllRequested (lib.hasLayer layerNames)
        (fun id => .layerUnsupported id (idToName layerNames id))
        ci.requestedLayers with
    | .error e => .error e
    | .ok () =>
      match checkAllRequested (lib.hasInstanceExtension extNames)
          (fun id => .extensionUnsupported id (idToName extNames id))
          ci.requestedExtensions with
      | .error e => .error e
      | .ok () =>
        .ok { reqExtensionsNames :=
                (augmentedRequestedExtensions extNames gpdp2 lib ci).map
                  (idToName extNames),
              reqLayerNames := ci.requestedLayers.map (idToName layerNames),
              apiVersion := ci.apiVersion }

/-- `UINT_MAX`, the revision bound used by the core-symbol version walk. -/
def uint32Max : Nat := 4294967295

/-- `Instance::loadInstanceSymbols` / `Device::loadDeviceSymbols` (the two
template recursions are textually identical up to the table type): walk
the statically generated chain of defined core versions in increasing
order; while the negotiated version is above
`ApiVersion{major, minor, UINT_MAX}`, step to the next defined version if
one exists, else post `ApiVersionUnsupported`; otherwise load and return
the table for the current `(major, minor)`. -/
def loadCoreSymbols (v : ApiVersion) :
    List (Nat × Nat) → Except VkwError (Nat × Nat)
  | [] => .error (.apiVersionUnsupported ⟨1, 0, 0⟩ v)
  | p :: rest =>
    if ApiVersion.lt ⟨p.1, p.2, uint32Max⟩ v then
      match rest with
      | [] => .error (.apiVersionUnsupported ⟨p.1, p.2, 0⟩ v)
      | next :: rest2 => loadCoreSymbols v (next :: rest2)
    else
      .ok p

/-- `vkw::Instance` state: `m_apiVer`, the loaded core table
(`m_coreInstanceSymbols`, identified by its chain point), and the enabled
extension / layer sets (`m_enabledExtensions` / `m_enabledLayers`,
queried by membership). -/
structure Instance where
  apiVer : ApiVersion
  loaded : Nat × Nat
  enabledExtensions : List Nat
  enabledLayers : List Nat
deriving DecidableEq, Repr

/-- `Instance::isExtensionEnabled`: membership in `m_enabledExtensions`. -/
def Instance.isExtensionEnabled (inst : Instance) (id : Nat) : Bool :=
  inst.enabledExtensions.contains id

/-- `Instance::isLayerEnabled`: membership in `m_enabledLayers`. -/
def Instance.isLayerEnabled (inst : Instance) (id : Nat) : Bool :=
  inst.enabledLayers.contains id

/-- `Instance::Instance`: compile the create info (posting any validation
error), issue the native create call (environment, modelled as
succeeding), load the core symbols for the requested version, and record
`m_apiVer := createInfo.apiVersion` plus the enabled sets copied from
`createInfo.requestedExtensions` / `createInfo.requestedLayers`. -/
def mkInstance (extNames layerNames : List String) (gpdp2 : Nat)
    (chain : List (Nat × Nat)) (lib : Library) (ci : InstanceCreateInfo) :
    Except VkwError Instance :=
  match compileInstanceCreateInfo extNames layerNames gpdp2 lib ci with
  | .error e => .error e
  | .ok _compiled =>
    match loadCoreSymbols ci.apiVersion chain with
    | .error e => .error e
    | .ok loaded =>
      .ok { apiVer := ci.apiVersion
            loaded := loaded
            enabledExtensions := ci.requestedExtensions
            enabledLayers := ci.requestedLayers }

/-- `Instance::core<major, minor>()`: post `SymbolsMissing` (negotiated
and requested versions) when `m_apiVer < ApiVersion{major, minor, 0}`,
else return the loaded core table. -/
def Instance.core (major minor : Nat) (inst : Instance) :
    Except VkwError (Nat × Nat) :=
  if ApiVersion.lt inst.apiVer ⟨major, minor, 0⟩ then
    .error (.symbolsMissing inst.apiVer ⟨major, minor, 0⟩)
  else
    .ok inst.loaded

/-! ## PhysicalDevice and Device (`PhysicalDevice.hpp`, `Device.hpp`) -/

/-- `PhysicalDevice::PhysicalDevice`, extension enumeration loop: for each
extension property reported by the native device, skip it when
`Library::ValidExtensionName` rejects the name, otherwise push
`Library::ExtensionId(name)` onto `m_supportedExtensions`. -/
def collectSupportedExtensions (extNames : List String) :
    List String → Except VkwError (List Nat)
  | [] => .ok []
  | name :: rest =>
    if validName extNames name then
      match nameToId VkwError.extensionNameError extNames name with
      | .error e => .error e
      | .ok id =>
        match collectSupportedExtensions extNames rest with
        | .error e => .error e
        | .ok ids => .ok (id :: ids)
    else
      collectSupportedExtensions extNames rest

/-- `vkw::PhysicalDevice` state relevant here: the device-advertised API
version (`m_properties.apiVersion`), the filtered supported-extension ids
(`m_supportedExtensions`), the enabled ids (`m_enabledExtensions`) and
the requested version (`m_requestedApiVersion`, default `{1,0,0}`). -/
structure PhysicalDevice where
  supportedApiVersion : ApiVersion
  supportedExtensions : List Nat
  enabledExtensions : List Nat := []
  requestedApiVersion : ApiVersion := ⟨1, 0, 0⟩
deriving DecidableEq, Repr

/-- `PhysicalDevice::extensionSupported`: membership in
`m_supportedExtensions`. -/
def PhysicalDevice.extensionSupported (pd : PhysicalDevice) (id : Nat) : Bool :=
  pd.supportedExtensions.contains id

/-- `PhysicalDevice::isExtensionEnabled`: membership in
`m_enabledExtensions`. -/
def PhysicalDevice.isExtensionEnabled (pd : PhysicalDevice) (id : Nat) : Bool :=
  pd.enabledExtensions.contains id

/-- `PhysicalDevice::requestApiVersion`: post `ApiVersionUnsupported` when
the request exceeds the device-supported version, else record it
unchanged. -/
def PhysicalDevice.requestApiVersion (pd : PhysicalDevice)
    (version : ApiVersion) : Except VkwError PhysicalDevice :=
  if ApiVersion.lt pd.supportedApiVersion version then
    .error (.apiVersionUnsupported pd.supportedApiVersion version)
  else
    .ok { pd with requestedApiVersion := version }

/-- `PhysicalDevice::enableExtension`: post `ExtensionUnsupported`
(carrying the canonical name) for an unsupported id; return unchanged if
already enabled (no duplicate insertion); otherwise append. -/
def PhysicalDevice.enableExtension (extNames : List String)
    (pd : PhysicalDevice) (id : Nat) : Except VkwError PhysicalDevice :=
  if !(pd.extensionSupported id) then
    .error (.extensionUnsupported id (idToName extNames id))
  else if pd.enabledExtensions.contains id then
    .ok pd
  else
    .ok { pd with enabledExtensions := pd.enabledExtensions ++ [id] }

/-- `DeviceInfo::DeviceInfo`, extension-list assembly: auto-enable
`ext::EXT_memory_budget` through `enableExtension` when the parent
instance has `KHR_get_physical_device_properties2` enabled, the device
supports it and it is not already enabled; then translate
`enabledExtensions()` into the name array handed to `vkCreateDevice`. -/
def deviceInfoExtensionNames (extNames : List String) (memoryBudget : Nat)
    (gpdp2 : Nat) (parent : Instance) (pd : PhysicalDevice) :
    Except VkwError (List String) :=
  if parent.isExtensionEnabled gpdp2 &&
      pd.extensionSupported memoryBudget &&
      !(pd.enabledExtensions.contains memoryBudget) then
    match pd.enableExtension extNames memoryBudget with
    | .error e => .error e
    | .ok pd2 => .ok (pd2.enabledExtensions.map (idToName extNames))
  else
    .ok (pd.enabledExtensions.map (idToName extNames))

/-- `vkw::Device` state relevant here: `DeviceInfo::m_apiVer` (copied from
`physicalDevice().requestedApiVersion()`) and the loaded core table
(`m_coreDeviceSymbols`). -/
structure Device where
  apiVer : ApiVersion
  loaded : Nat × Nat
deriving DecidableEq, Repr

/-- `Device::Device`: build the device info, issue the native create call
(environment, modelled as succeeding) and load the device core symbols
for `physicalDevice().requestedApiVersion()`. -/
def mkDevice (chain : List (Nat × Nat)) (pd : PhysicalDevice) :
    Except VkwError Device :=
  match loadCoreSymbols pd.requestedApiVersion chain with
  | .error e => .error e
  | .ok loaded => .ok { apiVer := pd.requestedApiVersion, loaded := loaded }

/-- `Device::core<major, minor>()`: post `SymbolsMissing` when
`apiVersion() < ApiVersion{major, minor, 0}`, else return the loaded core
table. -/
def Device.core (major minor : Nat) (dev : Device) :
    Except VkwError (Nat × Nat) :=
  if ApiVersion.lt dev.apiVer ⟨major, minor, 0⟩ then
    .error (.symbolsMissing dev.apiVer ⟨major, minor, 0⟩)
  else
    .ok dev.loaded

/-! ## Capability accessors (`Extensions.hpp`, `Layers.hpp`) -/

/-- `ExtensionBase<id, Instance>::ExtensionBase`: resolve the symbol table
(abstracted), then post `ExtensionMissing(id, name)` unless the instance
has `id` in its enabled set. -/
def mkInstanceExtensionAccessor (extNames : List String) (inst : Instance)
    (id : Nat) : Except VkwError Unit :=
  if inst.isExtensionEnabled id then
    .ok ()
  else
    .error (.extensionMissing id (idToName extNames id))

/-- `ExtensionBase<id, Device>::ExtensionBase`: the device-level check goes
through `device.physicalDevice().isExtensionEnabled(id)`. -/
def mkDeviceExtensionAccessor (extNames : List String) (pd : PhysicalDevice)
    (id : Nat) : Except VkwError Unit :=
  if pd.isExtensionEnabled id then
    .ok ()
  else
    .error (.extensionMissing id (idToName extNames id))

/-- `Layer<id>::Layer`: post `LayerMissing(id, name)` unless the instance
has `id` in its enabled layer set. -/
def mkLayerAccessor (layerNames : List String) (inst : Instance)
    (id : Nat) : Except VkwError Unit :=
  if inst.isLayerEnabled id then
    .ok ()
  else
    .error (.layerMissing id (idToName layerNames id))

/-! ## Ownership state machine of `Unique<T>` (`SymbolTable.hpp`)

`Unique<T>` owns its handle through a `std::unique_ptr` whose deleter
makes the native destroy call. The machine below tracks a collection of
`Unique` objects (cells): each cell holds `some h` (owning native handle
`h`) or `none` (null: default, moved-from, or already reset). `create`
constructs a new `Unique` from a successful `Deleter::create` (a fresh
non-null handle); `move` is `unique_ptr` move assignment
(`reset(other.release())`: destroy the destination's old handle if
non-null, take the source's handle, null the source); `destroy` is the
destructor, which invokes the deleter only on a non-null handle.
`destroyLog` records, in order, every handle on which the captured
deleter (the native destroy) was invoked. -/
inductive UniqueOp where
  | create
  | move (src dst : Nat)
  | destroy (cell : Nat)
deriving DecidableEq, Repr

/-- The state of the `Unique<T>` machine: the live cells, the next fresh
native handle value, and the log of native destroy invocations. -/
structure UniqueState where
  cells : List (Option Nat)
  next : Nat
  destroyLog : List Nat
deriving DecidableEq, Repr

/-- Initial state: no objects, nothing destroyed. -/
def UniqueState.init : UniqueState :=
  { cells := [], next := 0, destroyLog := [] }

/-- One operation of the `Unique<T>` machine (see the section comment).
Out-of-range cell indices and self-moves leave the state unchanged. -/
def UniqueState.step (s : UniqueState) : UniqueOp → UniqueState
  | .create =>
    { s with cells := s.cells ++ [some s.next], next := s.next + 1 }
  | .move src dst =>
    if src < s.cells.length ∧ dst < s.cells.length ∧ src ≠ dst then
      let sv := s.cells.getD src none
      let dv := s.cells.getD dst none
      { cells := (s.cells.set dst sv).set src none
        next := s.next
        destroyLog :=
          match dv with
          | some d => s.destroyLog ++ [d]
          | none => s.destroyLog }
    else
      s
  | .destroy cell =>
    if cell < s.cells.length then
      match s.cells.getD cell none with
      | some h =>
        { cells := s.cells.set cell none
          next := s.next
          destroyLog := s.destroyLog ++ [h] }
      | none => s
    else
      s

/-- Run a whole program of `Unique<T>` operations from the initial
state. -/
def UniqueState.run (ops : List UniqueOp) : UniqueState :=
  ops.foldl UniqueState.step UniqueState.init

/-- Ownership invariant: a handle is owned by at most one live cell and
destroyed at most once, and the combined count never exceeds one; handles
not yet created are neither owned nor destroyed. -/
def UniqueState.Inv (s : UniqueState) : Prop :=
  ∀ h : Nat,
    s.cells.count (some h) + s.destroyLog.count h ≤ 1 ∧
    (s.next ≤ h → s.cells.count (some h) = 0 ∧ s.destroyLog.count h = 0)

/-! ## Error reporting modes (`Exception.hpp`) -/

/-- The observable outcome of reporting an error: either the typed error
object is thrown to the caller, or the process terminates after the
recorded sequence of irrecoverable-error callbacks ran. Callbacks are
identified by the order tokens they were registered with. -/
inductive ReportOutcome where
  | thrown (e : VkwError)
  | terminated (callbacksRun : List Nat)
deriving DecidableEq, Repr

/-- `addIrrecoverableErrorCallback`: `emplace_back` onto the registered
callback list. -/
def addIrrecoverableErrorCallback (callbacks : List Nat) (cb : Nat) :
    List Nat :=
  callbacks ++ [cb]

/-- The callback loop of `irrecoverableError`: invoke every registered
callback, front to back; the returned list is the invocation order. -/
def runCallbacks (callbacks : List Nat) : List Nat :=
  callbacks.foldl (fun ran cb => ran ++ [cb]) []

/-- `irrecoverableError`: run every registered callback, then
`std::terminate` — it never returns and never throws. -/
def irrecoverableError (callbacks : List Nat) (_e : VkwError) :
    ReportOutcome :=
  .terminated (runCallbacks callbacks)

/-- `postError`: with `VKW_ENABLE_EXCEPTIONS` configured, throw the error
object; otherwise delegate to `irrecoverableError`. -/
def postError (exceptionsEnabled : Bool) (callbacks : List Nat)
    (e : VkwError) : ReportOutcome :=
  if exceptionsEnabled then .thrown e else irrecoverableError callbacks e

/-- `__detail::InstanceDestructor::operator()`: resolve
`vkDestroyInstance` through the parent library; a null result is reported
via `irrecoverableError` (with a `VulkanError{VK_ERROR_UNKNOWN}`) —
directly, bypassing `postError`, so the global mode is irrelevant; a
non-null result performs the native destroy (no error outcome). -/
def instanceDestructorRun (_exceptionsEnabled : Bool) (callbacks : List Nat)
    (resolvedDestroyFn : Option Unit) : Option ReportOutcome :=
  match resolvedDestroyFn with
  | none => some (irrecoverableError callbacks (.vulkanError (-13)))
  | some _ => none

/-! ## Helper lemmas -/

theorem findIdx?_some_lt {p : String → Bool} (l : List String) (i : Nat)
    (h : l.findIdx? p = some i) : i < l.length := by
  induction l generalizing i with
  | nil => simp at h
  | cons hd tl ih =>
    rw [List.findIdx?_cons] at h
    by_cases hp : p hd = true
    · rw [if_pos hp] at h
      cases h
      simp
    · rw [if_neg hp, List.findIdx?_succ] at h
      cases htl : List.findIdx? p tl with
      | none => rw [htl] at h; simp at h
      | some j =>
        rw [htl] at h
        simp only [Option.map_some'] at h
        cases h
        have := ih j htl
        simp only [List.length_cons]
        omega

theorem checkAllRequested_ok_iff (check : Nat → Bool) (mkErr : Nat → VkwError)
    (l : List Nat) :
    checkAllRequested check mkErr l = .ok () ↔ ∀ id ∈ l, check id = true := by
  induction l with
  | nil => simp [checkAllRequested]
  | cons hd tl ih =>
    by_cases hc : check hd = true
    · simp [checkAllRequested, hc, ih]
    · simp [checkAllRequested, hc]

theorem checkAllRequested_first_error (check : Nat → Bool)
    (mkErr : Nat → VkwError) (l : List Nat)
    (h : ∃ id ∈ l, check id = false) :
    ∃ id, id ∈ l ∧ check id = false ∧
      checkAllRequested check mkErr l = .error (mkErr id) := by
  induction l with
  | nil => simp at h
  | cons hd tl ih =>
    by_cases hc : check hd = true
    · have htl : ∃ id ∈ tl, check id = false := by
        rcases h with ⟨id, hid, hcf⟩
        rcases List.mem_cons.mp hid with rfl | hmem
        · rw [hc] at hcf; cases hcf
        · exact ⟨id, hmem, hcf⟩
      rcases ih htl with ⟨id, hmem, hcf, heq⟩
      exact ⟨id, List.mem_cons_of_mem hd hmem, hcf, by
        simpa [checkAllRequested, hc] using heq⟩
    · have hcf : check hd = false := by simpa using hc
      refine ⟨hd, List.mem_cons_self hd tl, hcf, ?_⟩
      simp [checkAllRequested, hcf]

theorem checkAllRequested_error_shape (check : Nat → Bool)
    (mkErr : Nat → VkwError) (l : List Nat) (e : VkwError)
    (h : checkAllRequested check mkErr l = .error e) :
    ∃ id, id ∈ l ∧ check id = false ∧ e = mkErr id := by
  induction l with
  | nil => simp [checkAllRequested] at h
  | cons hd tl ih =>
    by_cases hc : check hd = true
    · rw [checkAllRequested, if_pos hc] at h
      rcases ih h with ⟨id, hmem, hcf, rfl⟩
      exact ⟨id, List.mem_cons_of_mem hd hmem, hcf, rfl⟩
    · rw [checkAllRequested, if_neg hc] at h
      cases h
      exact ⟨hd, List.mem_cons_self hd tl, by simpa using hc, rfl⟩

theorem loadCoreSymbols_error_shape (v : ApiVersion)
    (chain : List (Nat × Nat)) (e : VkwError)
    (h : loadCoreSymbols v chain = .error e) :
    ∃ a b, e = .apiVersionUnsupported a b := by
  induction chain with
  | nil =>
    rw [loadCoreSymbols] at h
    cases h
    exact ⟨_, _, rfl⟩
  | cons hd tl ih =>
    cases tl with
    | nil =>
      simp only [loadCoreSymbols] at h
      by_cases hc : ApiVersion.lt ⟨hd.1, hd.2, uint32Max⟩ v = true
      · rw [if_pos hc] at h
        cases h
        exact ⟨_, _, rfl⟩
      · rw [if_neg hc] at h
        cases h
    | cons next tl2 =>
      simp only [loadCoreSymbols] at h
      by_cases hc : ApiVersion.lt ⟨hd.1, hd.2, uint32Max⟩ v = true
      · rw [if_pos hc] at h
        exact ih h
      · rw [if_neg hc] at h
        cases h

theorem loadCoreSymbols_ok_of_cover (v : ApiVersion)
    (chain : List (Nat × Nat))
    (h : ∃ p ∈ chain, ApiVersion.lt ⟨p.1, p.2, uint32Max⟩ v = false) :
    ∃ t, loadCoreSymbols v chain = .ok t := by
  induction chain with
  | nil => simp at h
  | cons hd tl ih =>
    by_cases hc : ApiVersion.lt ⟨hd.1, hd.2, uint32Max⟩ v = true
    · have htl : ∃ p ∈ tl, ApiVersion.lt ⟨p.1, p.2, uint32Max⟩ v = false := by
        rcases h with ⟨p, hp, hcf⟩
        rcases List.mem_cons.mp hp with rfl | hmem
        · rw [hc] at hcf; cases hcf
        · exact ⟨p, hmem, hcf⟩
      rcases ih htl with ⟨t, ht⟩
      cases tl with
      | nil => simp at htl
      | cons next tl2 =>
        refine ⟨t, ?_⟩
        simp only [loadCoreSymbols]
        rw [if_pos hc]
        exact ht
    · cases tl with
      | nil =>
        refine ⟨hd, ?_⟩
        simp only [loadCoreSymbols]
        rw [if_neg hc]
      | cons next tl2 =>
        refine ⟨hd, ?_⟩
        simp only [loadCoreSymbols]
        rw [if_neg hc]

theorem runCallbacks_eq (callbacks : List Nat) :
    runCallbacks callbacks = callbacks := by
  have general : ∀ (l acc : List Nat),
      l.foldl (fun ran cb => ran ++ [cb]) acc = acc ++ l := by
    intro l
    induction l with
    | nil => simp
    | cons hd tl ih => intro acc; simp [ih]
  simpa [runCallbacks] using general callbacks []

theorem compileInstanceCreateInfo_error_shape (extNames layerNames : List String)
    (gpdp2 : Nat) (lib : Library) (ci : InstanceCreateInfo) (e : VkwError)
    (h : compileInstanceCreateInfo extNames layerNames gpdp2 lib ci = .error e) :
    (∃ a b, e = .apiVersionUnsupported a b) ∨
    (∃ id, id ∈ ci.requestedLayers ∧ lib.hasLayer layerNames id = false ∧
      e = .layerUnsupported id (idToName layerNames id)) ∨
    (∃ id, id ∈ ci.requestedExtensions ∧
      lib.hasInstanceExtension extNames id = false ∧
      e = .extensionUnsupported id (idToName extNames id)) := by
  unfold compileInstanceCreateInfo at h
  by_cases hv : ApiVersion.lt lib.advertisedVersion ci.apiVersion = true
  · rw [if_pos hv] at h
    cases h
    exact Or.inl ⟨_, _, rfl⟩
  · rw [if_neg hv] at h
    cases hl : checkAllRequested (lib.hasLayer layerNames)
        (fun id => .layerUnsupported id (idToName layerNames id))
        ci.requestedLayers with
    | error e2 =>
      rw [hl] at h
      cases h
      rcases checkAllRequested_error_shape _ _ _ _ hl with ⟨id, hmem, hcf, rfl⟩
      exact Or.inr (Or.inl ⟨id, hmem, hcf, rfl⟩)
    | ok u =>
      cases u
      rw [hl] at h
      cases he : checkAllRequested (lib.hasInstanceExtension extNames)
          (fun id => .extensionUnsupported id (idToName extNames id))
          ci.requestedExtensions with
      | error e2 =>
        rw [he] at h
        cases h
        rcases checkAllRequested_error_shape _ _ _ _ he with ⟨id, hmem, hcf, rfl⟩
        exact Or.inr (Or.inr ⟨id, hmem, hcf, rfl⟩)
      | ok u2 =>
        cases u2
        rw [he] at h
        cases h

theorem mkInstance_error_shape (extNames layerNames : List String)
    (gpdp2 : Nat) (chain : List (Nat × Nat)) (lib : Library)
    (ci : InstanceCreateInfo) (e : VkwError)
    (h : mkInstance extNames layerNames gpdp2 chain lib ci = .error e) :
    (∃ a b, e = .apiVersionUnsupported a b) ∨
    (∃ id n, e = .layerUnsupported id n) ∨
    (∃ id n, e = .extensionUnsupported id n) := by
  unfold mkInstance at h
  cases hc : compileInstanceCreateInfo extNames layerNames gpdp2 lib ci with
  | error e2 =>
    rw [hc] at h
    cases h
    rcases compileInstanceCreateInfo_error_shape _ _ _ _ _ _ hc with
      hsh | hsh | hsh
    · exact Or.inl hsh
    · rcases hsh with ⟨id, _, _, rfl⟩
      exact Or.inr (Or.inl ⟨id, _, rfl⟩)
    · rcases hsh with ⟨id, _, _, rfl⟩
      exact Or.inr (Or.inr ⟨id, _, rfl⟩)
  | ok compiled =>
    rw [hc] at h
    cases hs : loadCoreSymbols ci.apiVersion chain with
    | error e2 =>
      rw [hs] at h
      cases h
      rcases loadCoreSymbols_error_shape _ _ _ hs with ⟨a, b, rfl⟩
      exact Or.inl ⟨a, b, rfl⟩
    | ok loaded =>
      rw [hs] at h
      cases h

theorem mkDevice_error_shape (chain : List (Nat × Nat)) (pd : PhysicalDevice)
    (e : VkwError) (h : mkDevice chain pd = .error e) :
    ∃ a b, e = .apiVersionUnsupported a b := by
  unfold mkDevice at h
  cases hs : loadCoreSymbols pd.requestedApiVersion chain with
  | error e2 =>
    rw [hs] at h
    cases h
    exact loadCoreSymbols_error_shape _ _ _ hs
  | ok loaded =>
    rw [hs] at h
    cases h

/-! ## Claim theorems -/

/-- C1: For a context (Instance or Device) negotiated at version `v`, the
versioned table query `core<M,m>()` returns the loaded table for every
`(M,m) ≤ v` and fails with `SymbolsMissing` — carrying the negotiated and
the requested version — for every `(M,m) > v`; the `SymbolsMissing`
failure happens at the query call site only: context construction never
produces it. -/
theorem core_table_gated_by_negotiated_version
    (inst : Instance) (dev : Device) (major minor : Nat) :
    (ApiVersion.le ⟨major, minor, 0⟩ inst.apiVer = true →
      Instance.core major minor inst = .ok inst.loaded) ∧
    (ApiVersion.le ⟨major, minor, 0⟩ inst.apiVer = false →
      Instance.core major minor inst =
        .error (.symbolsMissing inst.apiVer ⟨major, minor, 0⟩)) ∧
    (ApiVersion.le ⟨major, minor, 0⟩ dev.apiVer = true →
      Device.core major minor dev = .ok dev.loaded) ∧
    (ApiVersion.le ⟨major, minor, 0⟩ dev.apiVer = false →
      Device.core major minor dev =
        .error (.symbolsMissing dev.apiVer ⟨major, minor, 0⟩)) ∧
    (∀ (extNames layerNames : List String) (gpdp2 : Nat)
        (chain : List (Nat × Nat)) (lib : Library) (ci : InstanceCreateInfo)
        (loaded requested : ApiVersion),
      mkInstance extNames layerNames gpdp2 chain lib ci ≠
        .error (.symbolsMissing loaded requested)) ∧
    (∀ (chain : List (Nat × Nat)) (pd : PhysicalDevice)
        (loaded requested : ApiVersion),
      mkDevice chain pd ≠ .error (.symbolsMissing loaded requested)) := by
  refine ⟨?_, ?_, ?_, ?_, ?_, ?_⟩
  · intro h
    have hlt : ApiVersion.lt inst.apiVer ⟨major, minor, 0⟩ = false :=
      (ApiVersion.not_lt_iff_le _ _).mpr h
    simp [Instance.core, hlt]
  · intro h
    have hlt : ApiVersion.lt inst.apiVer ⟨major, minor, 0⟩ = true := by
      cases hc : ApiVersion.lt inst.apiVer ⟨major, minor, 0⟩
      · rw [(ApiVersion.not_lt_iff_le _ _).mp hc] at h
        cases h
      · rfl
    simp [Instance.core, hlt]
  · intro h
    have hlt : ApiVersion.lt dev.apiVer ⟨major, minor, 0⟩ = false :=
      (ApiVersion.not_lt_iff_le _ _).mpr h
    simp [Device.core, hlt]
  · intro h
    have hlt : ApiVersion.lt dev.apiVer ⟨major, minor, 0⟩ = true := by
      cases hc : ApiVersion.lt dev.apiVer ⟨major, minor, 0⟩
      · rw [(ApiVersion.not_lt_iff_le _ _).mp hc] at h
        cases h
      · rfl
    simp [Device.core, hlt]
  · intro extNames layerNames gpdp2 chain lib ci loaded requested hcontra
    rcases mkInstance_error_shape _ _ _ _ _ _ _ hcontra with
      ⟨a, b, hab⟩ | ⟨id, n, hab⟩ | ⟨id, n, hab⟩ <;> cases hab
  · intro chain pd loaded requested hcontra
    rcases mkDevice_error_shape _ _ _ hcontra with ⟨a, b, hab⟩
    cases hab

/-- C1 witness: a context negotiated at 1.2 serves `core<1,2>` and fails
`core<1,3>` with `SymbolsMissing{1.2, 1.3}`. -/
theorem core_table_gated_by_negotiated_version_witness :
    Instance.core 1 2 ⟨⟨1, 2, 0⟩, (1, 2), [0], []⟩ = .ok (1, 2) ∧
    Instance.core 1 3 ⟨⟨1, 2, 0⟩, (1, 2), [0], []⟩ =
      .error (.symbolsMissing ⟨1, 2, 0⟩ ⟨1, 3, 0⟩) ∧
    Device.core 1 1 ⟨⟨1, 1, 0⟩, (1, 1)⟩ = .ok (1, 1) :=
  ⟨(core_table_gated_by_negotiated_version ⟨⟨1, 2, 0⟩, (1, 2), [0], []⟩
      ⟨⟨1, 1, 0⟩, (1, 1)⟩ 1 2).1 rfl,
   (core_table_gated_by_negotiated_version ⟨⟨1, 2, 0⟩, (1, 2), [0], []⟩
      ⟨⟨1, 1, 0⟩, (1, 1)⟩ 1 3).2.1 rfl,
   (core_table_gated_by_negotiated_version ⟨⟨1, 2, 0⟩, (1, 2), [0], []⟩
      ⟨⟨1, 1, 0⟩, (1, 1)⟩ 1 1).2.2.1 rfl⟩

/-- C3: Constructing a capability accessor (`Extension<id>` over an
instance or device, `Layer<id>` over an instance) fails with the Missing
error (`ExtensionMissing`/`LayerMissing`, naming the offender) exactly
when the capability is not in the context's enabled set, and succeeds
when it is enabled. -/
theorem capability_accessor_requires_enabled
    (extNames layerNames : List String) (inst : Instance)
    (pd : PhysicalDevice) (id : Nat) :
    (inst.isExtensionEnabled id = true →
      mkInstanceExtensionAccessor extNames inst id = .ok ()) ∧
    (inst.isExtensionEnabled id = false →
      mkInstanceExtensionAccessor extNames inst id =
        .error (.extensionMissing id (idToName extNames id))) ∧
    (pd.isExtensionEnabled id = true →
      mkDeviceExtensionAccessor extNames pd id = .ok ()) ∧
    (pd.isExtensionEnabled id = false →
      mkDeviceExtensionAccessor extNames pd id =
        .error (.extensionMissing id (idToName extNames id))) ∧
    (inst.isLayerEnabled id = true →
      mkLayerAccessor layerNames inst id = .ok ()) ∧
    (inst.isLayerEnabled id = false →
      mkLayerAccessor layerNames inst id =
        .error (.layerMissing id (idToName layerNames id))) := by
  refine ⟨?_, ?_, ?_, ?_, ?_, ?_⟩ <;> intro h <;>
    simp [mkInstanceExtensionAccessor, mkDeviceExtensionAccessor,
      mkLayerAccessor, h]

/-- C3 witness, the spec's concrete scenario: registry advertising version
1.3.0, layer Debug and extensions ExtA/ExtB; requesting 1.2.0 with
capability ExtA succeeds, reports ExtA enabled and ExtB disabled, and a
subsequent accessor for the supported-but-unrequested ExtB fails with the
Missing (not the Unsupported) error. -/
theorem capability_accessor_requires_enabled_witness :
    mkInstance ["ExtA", "ExtB", "VK_KHR_get_physical_device_properties2"]
        ["VK_LAYER_Debug"] 2 [(1, 0), (1, 1), (1, 2), (1, 3)]
        ⟨⟨1, 3, 0⟩, ["VK_LAYER_Debug"], ["ExtA", "ExtB"]⟩
        ⟨[0], [], ⟨1, 2, 0⟩⟩ =
      .ok ⟨⟨1, 2, 0⟩, (1, 2), [0], []⟩ ∧
    Instance.isExtensionEnabled ⟨⟨1, 2, 0⟩, (1, 2), [0], []⟩ 0 = true ∧
    Instance.isExtensionEnabled ⟨⟨1, 2, 0⟩, (1, 2), [0], []⟩ 1 = false ∧
    mkInstanceExtensionAccessor
        ["ExtA", "ExtB", "VK_KHR_get_physical_device_properties2"]
        ⟨⟨1, 2, 0⟩, (1, 2), [0], []⟩ 0 = .ok () ∧
    mkInstanceExtensionAccessor
        ["ExtA", "ExtB", "VK_KHR_get_physical_device_properties2"]
        ⟨⟨1, 2, 0⟩, (1, 2), [0], []⟩ 1 =
      .error (.extensionMissing 1 "ExtB") :=
  ⟨rfl, rfl, rfl,
   (capability_accessor_requires_enabled
      ["ExtA", "ExtB", "VK_KHR_get_physical_device_properties2"]
      ["VK_LAYER_Debug"] ⟨⟨1, 2, 0⟩, (1, 2), [0], []⟩
      ⟨⟨1, 0, 0⟩, [], [], ⟨1, 0, 0⟩⟩ 0).1 rfl,
   (capability_accessor_requires_enabled
      ["ExtA", "ExtB", "VK_KHR_get_physical_device_properties2"]
      ["VK_LAYER_Debug"] ⟨⟨1, 2, 0⟩, (1, 2), [0], []⟩
      ⟨⟨1, 0, 0⟩, [], [], ⟨1, 0, 0⟩⟩ 1).2.1 rfl⟩

/-- C6: For every valid dense ID, translating its canonical name back
yields the same ID (`ExtensionId(ExtensionName(id)) == id`,
`LayerId(LayerName(id)) == id`, over duplicate-free generated name
tables); translating an unregistered string fails with the corresponding
name error instead of returning an ID. -/
theorem name_id_translation_roundtrip
    (extNames layerNames : List String) (eid lid : Nat) (s t : String)
    (hexnd : extNames.Nodup) (hlynd : layerNames.Nodup)
    (heid : eid < extNames.length) (hlid : lid < layerNames.length)
    (hs : s ∉ extNames) (ht : t ∉ layerNames) :
    nameToId VkwError.extensionNameError extNames (idToName extNames eid) =
      .ok eid ∧
    nameToId VkwError.layerNameError layerNames (idToName layerNames lid) =
      .ok lid ∧
    nameToId VkwError.extensionNameError extNames s =
      .error (.extensionNameError s) ∧
    nameToId VkwError.layerNameError layerNames t =
      .error (.layerNameError t) := by
  refine ⟨?_, ?_, ?_, ?_⟩
  · unfold nameToId idToName
    rw [findIdx?_getD_of_nodup extNames eid hexnd heid]
  · unfold nameToId idToName
    rw [findIdx?_getD_of_nodup layerNames lid hlynd hlid]
  · unfold nameToId
    rw [findIdx?_eq_none_of_not_mem extNames s hs]
  · unfold nameToId
    rw [findIdx?_eq_none_of_not_mem layerNames t ht]

/-- C6 witness: round-trip and fail-closed translation at concrete
tables. -/
theorem name_id_translation_roundtrip_witness :
    nameToId VkwError.extensionNameError ["VK_EXT_one", "VK_EXT_two"]
      (idToName ["VK_EXT_one", "VK_EXT_two"] 1) = .ok 1 ∧
    nameToId VkwError.layerNameError ["VK_LAYER_one"]
      (idToName ["VK_LAYER_one"] 0) = .ok 0 ∧
    nameToId VkwError.extensionNameError ["VK_EXT_one", "VK_EXT_two"]
      "VK_EXT_unknown" = .error (.extensionNameError "VK_EXT_unknown") ∧
    nameToId VkwError.layerNameError ["VK_LAYER_one"] "VK_LAYER_unknown" =
      .error (.layerNameError "VK_LAYER_unknown") :=
  name_id_translation_roundtrip ["VK_EXT_one", "VK_EXT_two"] ["VK_LAYER_one"]
    1 0 "VK_EXT_unknown" "VK_LAYER_unknown" (by decide) (by decide)
    (by decide) (by decide) (by decide) (by decide)

/-- C8: Error reporting has exactly two build-time modes: with exceptions
enabled `postError` throws the typed error object (every error exposes a
stable, payload-independent `codeString`); with exceptions disabled it
runs every registered irrecoverable-error callback in registration order
and terminates. The instance destructor's teardown failure (unresolvable
`vkDestroyInstance`) goes through the callback-then-terminate path in
both modes and is never thrown. -/
theorem error_reporting_two_modes (e : VkwError) (callbacks : List Nat) :
    postError true callbacks e = .thrown e ∧
    postError false callbacks e = .terminated callbacks ∧
    runCallbacks callbacks = callbacks ∧
    (∀ mode : Bool, instanceDestructorRun mode callbacks none =
      some (.terminated callbacks)) ∧
    (∀ (mode : Bool) (fn : Option Unit) (err : VkwError),
      instanceDestructorRun mode callbacks fn ≠ some (.thrown err)) ∧
    (∀ v r v2 r2 : ApiVersion,
      (VkwError.symbolsMissing v r).codeString =
        (VkwError.symbolsMissing v2 r2).codeString) ∧
    (∀ k : Int, (VkwError.vulkanError k).codeString = "Vulkan error") := by
  refine ⟨rfl, ?_, runCallbacks_eq callbacks, ?_, ?_, ?_, ?_⟩
  · simp [postError, irrecoverableError, runCallbacks_eq]
  · intro mode
    simp [instanceDestructorRun, irrecoverableError, runCallbacks_eq]
  · intro mode fn err hcontra
    cases fn <;> simp [instanceDestructorRun, irrecoverableError] at hcontra
  · intro v r v2 r2
    rfl
  · intro k
    rfl

/-- C8 witness: both modes and the destructor teardown path at concrete
inputs. -/
theorem error_reporting_two_modes_witness :
    postError true [] (.vulkanError 0) = .thrown (.vulkanError 0) ∧
    postError false [7, 3] (.vulkanError 0) = .terminated [7, 3] ∧
    instanceDestructorRun true [7, 3] none = some (.terminated [7, 3]) :=
  ⟨(error_reporting_two_modes (.vulkanError 0) []).1,
   (error_reporting_two_modes (.vulkanError 0) [7, 3]).2.1,
   (error_reporting_two_modes (.vulkanError 0) [7, 3]).2.2.2.1 true⟩

/-- C10: PhysicalDevice construction filters the natively advertised
extension names through the static table: unknown names are silently
skipped (enumeration never produces a name error), and the resulting
supported list holds exactly the dense IDs of the registered names, each
a valid index into the table. -/
theorem physicalDevice_enumeration_skips_unknown_names
    (extNames advertised : List String) :
    collectSupportedExtensions extNames advertised =
      .ok (advertised.filterMap
        (fun n => extNames.findIdx? (fun entry => entry == n))) ∧
    ∀ id ∈ advertised.filterMap
        (fun n => extNames.findIdx? (fun entry => entry == n)),
      id < extNames.length := by
  constructor
  · induction advertised with
    | nil => simp [collectSupportedExtensions]
    | cons name rest ih =>
      by_cases hv : validName extNames name = true
      · have hsome : ∃ i,
            extNames.findIdx? (fun entry => entry == name) = some i := by
          cases hf : extNames.findIdx? (fun entry => entry == name) with
          | some i => exact ⟨i, rfl⟩
          | none =>
            rw [List.findIdx?_eq_none_iff] at hf
            have hmem : name ∈ extNames := by
              simpa [validName] using hv
            have := hf name hmem
            simp at this
        rcases hsome with ⟨i, hi⟩
        simp [collectSupportedExtensions, hv, nameToId, hi,
          List.filterMap_cons, ih]
      · have hnone :
            extNames.findIdx? (fun entry => entry == name) = none := by
          rw [List.findIdx?_eq_none_iff]
          intro x hx
          have hnm : name ∉ extNames := by
            simpa [validName] using hv
          simp only [beq_eq_false_iff_ne, ne_eq]
          rintro rfl
          exact hnm hx
        simp [collectSupportedExtensions, hv, List.filterMap_cons, hnone, ih]
  · intro id hid
    rw [List.mem_filterMap] at hid
    rcases hid with ⟨n, _, hfi⟩
    exact findIdx?_some_lt extNames id hfi

/-- C10 witness: a device advertising a known, an unknown and another
known name yields exactly the two registered dense IDs, each in range. -/
theorem physicalDevice_enumeration_skips_unknown_names_witness :
    collectSupportedExtensions ["ExtA", "ExtB"]
        ["ExtB", "VK_unknown_ext", "ExtA"] =
      .ok ((["ExtB", "VK_unknown_ext", "ExtA"] : List String).filterMap
        (fun n => (["ExtA", "ExtB"] : List String).findIdx?
          (fun entry => entry == n))) ∧
    1 < (["ExtA", "ExtB"] : List String).length :=
  ⟨(physicalDevice_enumeration_skips_unknown_names ["ExtA", "ExtB"]
      ["ExtB", "VK_unknown_ext", "ExtA"]).1,
   (physicalDevice_enumeration_skips_unknown_names ["ExtA", "ExtB"]
      ["ExtB", "VK_unknown_ext", "ExtA"]).2 1 (by decide)⟩

theorem compileInstanceCreateInfo_ok_of_valid (extNames layerNames : List String)
    (gpdp2 : Nat) (lib : Library) (ci : InstanceCreateInfo)
    (hver : ApiVersion.le ci.apiVersion lib.advertisedVersion = true)
    (hlayers : ∀ id ∈ ci.requestedLayers, lib.hasLayer layerNames id = true)
    (hexts : ∀ id ∈ ci.requestedExtensions,
      lib.hasInstanceExtension extNames id = true) :
    compileInstanceCreateInfo extNames layerNames gpdp2 lib ci =
      .ok { reqExtensionsNames :=
              (augmentedRequestedExtensions extNames gpdp2 lib ci).map
                (idToName extNames),
            reqLayerNames := ci.requestedLayers.map (idToName layerNames),
            apiVersion := ci.apiVersion } := by
  have hvlt : ApiVersion.lt lib.advertisedVersion ci.apiVersion = false :=
    (ApiVersion.not_lt_iff_le _ _).mpr hver
  unfold compileInstanceCreateInfo
  rw [if_neg (by simp [hvlt]),
    (checkAllRequested_ok_iff (lib.hasLayer layerNames)
      (fun id => .layerUnsupported id (idToName layerNames id))
      ci.requestedLayers).mpr hlayers,
    (checkAllRequested_ok_iff (lib.hasInstanceExtension extNames)
      (fun id => .extensionUnsupported id (idToName extNames id))
      ci.requestedExtensions).mpr hexts]

/-- C4: Every construction request within what the parent advertises —
version not above the advertised maximum, every requested layer and
extension present in the advertised sets (and the requested version
covered by the generated core-version chain) — succeeds, and the
context records the requested version exactly as its negotiated version;
likewise `PhysicalDevice::requestApiVersion` records a supported request
exactly. -/
theorem construction_within_advertised_succeeds_exactly
    (extNames layerNames : List String) (gpdp2 : Nat)
    (chain : List (Nat × Nat)) (lib : Library) (ci : InstanceCreateInfo)
    (pd : PhysicalDevice) (v : ApiVersion)
    (hver : ApiVersion.le ci.apiVersion lib.advertisedVersion = true)
    (hlayers : ∀ id ∈ ci.requestedLayers, lib.hasLayer layerNames id = true)
    (hexts : ∀ id ∈ ci.requestedExtensions,
      lib.hasInstanceExtension extNames id = true)
    (hchain : ∃ p ∈ chain,
      ApiVersion.lt ⟨p.1, p.2, uint32Max⟩ ci.apiVersion = false)
    (hdev : ApiVersion.le v pd.supportedApiVersion = true) :
    (∃ inst : Instance,
      mkInstance extNames layerNames gpdp2 chain lib ci = .ok inst ∧
      inst.apiVer = ci.apiVersion ∧
      inst.enabledExtensions = ci.requestedExtensions ∧
      inst.enabledLayers = ci.requestedLayers) ∧
    pd.requestApiVersion v = .ok { pd with requestedApiVersion := v } := by
  constructor
  · rcases loadCoreSymbols_ok_of_cover ci.apiVersion chain hchain with
      ⟨loaded, hload⟩
    refine ⟨{ apiVer := ci.apiVersion, loaded := loaded,
              enabledExtensions := ci.requestedExtensions,
              enabledLayers := ci.requestedLayers }, ?_, rfl, rfl, rfl⟩
    unfold mkInstance
    rw [compileInstanceCreateInfo_ok_of_valid extNames layerNames gpdp2 lib ci
      hver hlayers hexts, hload]
  · have hvlt : ApiVersion.lt pd.supportedApiVersion v = false :=
      (ApiVersion.not_lt_iff_le _ _).mpr hdev
    simp [PhysicalDevice.requestApiVersion, hvlt]

/-- C4 witness: a fully advertised request at version 1.1 constructs and
records 1.1 exactly. -/
theorem construction_within_advertised_succeeds_exactly_witness :
    (∃ inst : Instance,
      mkInstance ["E0", "E1"] ["L0"] 1 [(1, 0), (1, 1)]
          ⟨⟨1, 1, 0⟩, ["L0"], ["E0", "E1"]⟩ ⟨[0], [0], ⟨1, 1, 0⟩⟩ =
        .ok inst ∧
      inst.apiVer = ⟨1, 1, 0⟩ ∧
      inst.enabledExtensions = [0] ∧
      inst.enabledLayers = [0]) ∧
    PhysicalDevice.requestApiVersion ⟨⟨1, 2, 0⟩, [], [], ⟨1, 0, 0⟩⟩ ⟨1, 1, 0⟩ =
      .ok ⟨⟨1, 2, 0⟩, [], [], ⟨1, 1, 0⟩⟩ :=
  construction_within_advertised_succeeds_exactly ["E0", "E1"] ["L0"] 1
    [(1, 0), (1, 1)] ⟨⟨1, 1, 0⟩, ["L0"], ["E0", "E1"]⟩ ⟨[0], [0], ⟨1, 1, 0⟩⟩
    ⟨⟨1, 2, 0⟩, [], [], ⟨1, 0, 0⟩⟩ ⟨1, 1, 0⟩ rfl (by decide) (by decide)
    ⟨(1, 1), by decide⟩ rfl

/-- C5 counterexample: the request `{version 1.1, layers [id 0]}` against
a parent advertising version 1.0 and no layers names an unadvertised
layer, yet construction fails with `ApiVersionUnsupported` — the version
check fires first — and not with the `LayerUnsupported` error naming the
offending layer that the claim requires for every such request. -/
theorem construction_unsupported_name_error_cex :
    compileInstanceCreateInfo [] ["VK_LAYER_X"] 0 ⟨⟨1, 0, 0⟩, [], []⟩
        ⟨[], [0], ⟨1, 1, 0⟩⟩ =
      .error (.apiVersionUnsupported ⟨1, 0, 0⟩ ⟨1, 1, 0⟩) ∧
    Library.hasLayer ["VK_LAYER_X"] ⟨⟨1, 0, 0⟩, [], []⟩ 0 = false ∧
    compileInstanceCreateInfo [] ["VK_LAYER_X"] 0 ⟨⟨1, 0, 0⟩, [], []⟩
        ⟨[], [0], ⟨1, 1, 0⟩⟩ ≠
      .error (.layerUnsupported 0 "VK_LAYER_X") := by
  refine ⟨rfl, rfl, ?_⟩
  intro h
  rw [show compileInstanceCreateInfo [] ["VK_LAYER_X"] 0 ⟨⟨1, 0, 0⟩, [], []⟩
      ⟨[], [0], ⟨1, 1, 0⟩⟩ =
      .error (.apiVersionUnsupported ⟨1, 0, 0⟩ ⟨1, 1, 0⟩) from rfl] at h
  exact VkwError.noConfusion (Except.error.inj h)

/-- C5 amended: provided the requested version is within the advertised
maximum (otherwise the version error takes precedence), every request
naming at least one unadvertised layer or extension fails with
`LayerUnsupported`/`ExtensionUnsupported` whose payload is exactly the
offender's canonical name (layer failures are reported before extension
failures). -/
theorem construction_unsupported_name_in_error
    (extNames layerNames : List String) (gpdp2 : Nat) (lib : Library)
    (ci : InstanceCreateInfo)
    (hver : ApiVersion.le ci.apiVersion lib.advertisedVersion = true)
    (hbad : (∃ id ∈ ci.requestedLayers, lib.hasLayer layerNames id = false) ∨
      (∃ id ∈ ci.requestedExtensions,
        lib.hasInstanceExtension extNames id = false)) :
    ∃ id,
      (id ∈ ci.requestedLayers ∧ lib.hasLayer layerNames id = false ∧
        compileInstanceCreateInfo extNames layerNames gpdp2 lib ci =
          .error (.layerUnsupported id (idToName layerNames id))) ∨
      (id ∈ ci.requestedExtensions ∧
        lib.hasInstanceExtension extNames id = false ∧
        compileInstanceCreateInfo extNames layerNames gpdp2 lib ci =
          .error (.extensionUnsupported id (idToName extNames id))) := by
  have hvlt : ApiVersion.lt lib.advertisedVersion ci.apiVersion = false :=
    (ApiVersion.not_lt_iff_le _ _).mpr hver
  by_cases hlay : ∃ id ∈ ci.requestedLayers, lib.hasLayer layerNames id = false
  · rcases checkAllRequested_first_error (lib.hasLayer layerNames)
      (fun id => .layerUnsupported id (idToName layerNames id))
      ci.requestedLayers hlay with ⟨id, hmem, hcf, heq⟩
    refine ⟨id, Or.inl ⟨hmem, hcf, ?_⟩⟩
    unfold compileInstanceCreateInfo
    rw [if_neg (by simp [hvlt]), heq]
  · have hext : ∃ id ∈ ci.requestedExtensions,
        lib.hasInstanceExtension extNames id = false := hbad.resolve_left hlay
    have hlayok : ∀ id ∈ ci.requestedLayers,
        lib.hasLayer layerNames id = true := by
      intro id hid
      cases hc : lib.hasLayer layerNames id
      · exact absurd ⟨id, hid, hc⟩ hlay
      · rfl
    rcases checkAllRequested_first_error (lib.hasInstanceExtension extNames)
      (fun id => .extensionUnsupported id (idToName extNames id))
      ci.requestedExtensions hext with ⟨id, hmem, hcf, heq⟩
    refine ⟨id, Or.inr ⟨hmem, hcf, ?_⟩⟩
    unfold compileInstanceCreateInfo
    rw [if_neg (by simp [hvlt]),
      (checkAllRequested_ok_iff (lib.hasLayer layerNames)
        (fun id => .layerUnsupported id (idToName layerNames id))
        ci.requestedLayers).mpr hlayok, heq]

/-- C5 amended witness: with a supported version, requesting the
unadvertised layer id 0 fails naming "VK_LAYER_X". -/
theorem construction_unsupported_name_in_error_witness :
    ∃ id,
      (id ∈ ([0] : List Nat) ∧
        Library.hasLayer ["VK_LAYER_X"] ⟨⟨1, 1, 0⟩, [], []⟩ id = false ∧
        compileInstanceCreateInfo [] ["VK_LAYER_X"] 0 ⟨⟨1, 1, 0⟩, [], []⟩
            ⟨[], [0], ⟨1, 0, 0⟩⟩ =
          .error (.layerUnsupported id (idToName ["VK_LAYER_X"] id))) ∨
      (id ∈ ([] : List Nat) ∧
        Library.hasInstanceExtension [] ⟨⟨1, 1, 0⟩, [], []⟩ id = false ∧
        compileInstanceCreateInfo [] ["VK_LAYER_X"] 0 ⟨⟨1, 1, 0⟩, [], []⟩
            ⟨[], [0], ⟨1, 0, 0⟩⟩ =
          .error (.extensionUnsupported id (idToName [] id))) :=
  construction_unsupported_name_in_error [] ["VK_LAYER_X"] 0
    ⟨⟨1, 1, 0⟩, [], []⟩ ⟨[], [0], ⟨1, 0, 0⟩⟩ rfl
    (Or.inl ⟨0, by decide, rfl⟩)

/-- C2 counterexample: with `KHR_get_physical_device_properties2`
supported (id 0) and not requested, the compiled create info passes the
extension to the native create call, yet the constructed instance
reports it as not enabled — the auto-enabled capability is missing from
the recorded enabled set. -/
theorem autoenable_not_recorded_cex :
    compileInstanceCreateInfo ["VK_KHR_get_physical_device_properties2"] [] 0
        ⟨⟨1, 0, 0⟩, [], ["VK_KHR_get_physical_device_properties2"]⟩
        ⟨[], [], ⟨1, 0, 0⟩⟩ =
      .ok ⟨["VK_KHR_get_physical_device_properties2"], [], ⟨1, 0, 0⟩⟩ ∧
    mkInstance ["VK_KHR_get_physical_device_properties2"] [] 0 [(1, 0)]
        ⟨⟨1, 0, 0⟩, [], ["VK_KHR_get_physical_device_properties2"]⟩
        ⟨[], [], ⟨1, 0, 0⟩⟩ =
      .ok ⟨⟨1, 0, 0⟩, (1, 0), [], []⟩ ∧
    "VK_KHR_get_physical_device_properties2" ∈
      (["VK_KHR_get_physical_device_properties2"] : List String) ∧
    Instance.isExtensionEnabled ⟨⟨1, 0, 0⟩, (1, 0), [], []⟩ 0 = false :=
  ⟨rfl, rfl, List.mem_singleton.mpr rfl, rfl⟩

/-- C2 amended: construction additively auto-enables
`KHR_get_physical_device_properties2` at the native create call when it
is supported and not explicitly requested and never removes a caller
request (every requested capability is passed and afterwards reported
enabled); however, the context records exactly the caller's requested
sets as its enabled state, so the auto-enabled capability, when not
explicitly requested, is enabled at the native create call but not
reported as enabled afterwards. -/
theorem autoenable_additive_but_unrecorded
    (extNames layerNames : List String) (gpdp2 : Nat)
    (chain : List (Nat × Nat)) (lib : Library) (ci : InstanceCreateInfo)
    (c : CompiledInstanceCreateInfo) (inst : Instance)
    (hc : compileInstanceCreateInfo extNames layerNames gpdp2 lib ci = .ok c)
    (hi : mkInstance extNames layerNames gpdp2 chain lib ci = .ok inst) :
    (∀ id ∈ ci.requestedExtensions,
      idToName extNames id ∈ c.reqExtensionsNames) ∧
    (∀ id ∈ ci.requestedLayers, idToName layerNames id ∈ c.reqLayerNames) ∧
    (lib.hasInstanceExtension extNames gpdp2 = true →
      ci.requestedExtensions.contains gpdp2 = false →
      idToName extNames gpdp2 ∈ c.reqExtensionsNames) ∧
    inst.enabledExtensions = ci.requestedExtensions ∧
    inst.enabledLayers = ci.requestedLayers ∧
    (∀ id : Nat,
      inst.isExtensionEnabled id = ci.requestedExtensions.contains id) := by
  have hfields : inst.enabledExtensions = ci.requestedExtensions ∧
      inst.enabledLayers = ci.requestedLayers := by
    unfold mkInstance at hi
    rw [hc] at hi
    cases hs : loadCoreSymbols ci.apiVersion chain with
    | error e2 =>
      rw [hs] at hi
      cases hi
    | ok loaded =>
      rw [hs] at hi
      have hrec := Except.ok.inj hi
      exact ⟨by rw [← hrec], by rw [← hrec]⟩
  have hcrec : c = CompiledInstanceCreateInfo.mk
      ((augmentedRequestedExtensions extNames gpdp2 lib ci).map
        (idToName extNames))
      (ci.requestedLayers.map (idToName layerNames))
      ci.apiVersion := by
    unfold compileInstanceCreateInfo at hc
    by_cases hv : ApiVersion.lt lib.advertisedVersion ci.apiVersion = true
    · rw [if_pos hv] at hc
      cases hc
    · rw [if_neg hv] at hc
      cases hl : checkAllRequested (lib.hasLayer layerNames)
          (fun id => .layerUnsupported id (idToName layerNames id))
          ci.requestedLayers with
      | error e2 => rw [hl] at hc; cases hc
      | ok u =>
        cases u
        rw [hl] at hc
        cases he : checkAllRequested (lib.hasInstanceExtension extNames)
            (fun id => .extensionUnsupported id (idToName extNames id))
            ci.requestedExtensions with
        | error e2 => rw [he] at hc; cases hc
        | ok u2 =>
          cases u2
          rw [he] at hc
          exact (Except.ok.inj hc).symm
  refine ⟨?_, ?_, ?_, ?_, ?_, ?_⟩
  · intro id hid
    rw [hcrec]
    unfold augmentedRequestedExtensions
    by_cases hcond : (lib.hasInstanceExtension extNames gpdp2 &&
        !(ci.requestedExtensions.contains gpdp2)) = true
    · simp only [hcond, if_true]
      exact List.mem_map_of_mem _ (List.mem_append_left _ hid)
    · simp only [Bool.not_eq_true] at hcond
      simp only [hcond, Bool.false_eq_true, if_false]
      exact List.mem_map_of_mem _ hid
  · intro id hid
    rw [hcrec]
    exact List.mem_map_of_mem _ hid
  · intro hsupp hnreq
    rw [hcrec]
    unfold augmentedRequestedExtensions
    have hcond : (lib.hasInstanceExtension extNames gpdp2 &&
        !(ci.requestedExtensions.contains gpdp2)) = true := by
      rw [hsupp, hnreq]
      rfl
    simp only [hcond, if_true]
    exact List.mem_map_of_mem _
      (List.mem_append_right _ (List.mem_singleton.mpr rfl))
  · exact hfields.1
  · exact hfields.2
  · intro id
    unfold Instance.isExtensionEnabled
    rw [hfields.1]

/-- C2 amended witness: requested extension id 0 is passed and reported
enabled; the auto-enabled id 1 is passed to the native call but `inst`
records only `[0]`. -/
theorem autoenable_additive_but_unrecorded_witness :
    (idToName ["E0", "VK_KHR_get_physical_device_properties2"] 0 ∈
      (CompiledInstanceCreateInfo.mk
        ["E0", "VK_KHR_get_physical_device_properties2"] [] ⟨1, 0, 0⟩).reqExtensionsNames) ∧
    (idToName ["E0", "VK_KHR_get_physical_device_properties2"] 1 ∈
      (CompiledInstanceCreateInfo.mk
        ["E0", "VK_KHR_get_physical_device_properties2"] [] ⟨1, 0, 0⟩).reqExtensionsNames) ∧
    Instance.enabledExtensions ⟨⟨1, 0, 0⟩, (1, 0), [0], []⟩ = [0] := by
  have happ := autoenable_additive_but_unrecorded
    ["E0", "VK_KHR_get_physical_device_properties2"] [] 1 [(1, 0)]
    ⟨⟨1, 0, 0⟩, [], ["E0", "VK_KHR_get_physical_device_properties2"]⟩
    ⟨[0], [], ⟨1, 0, 0⟩⟩
    ⟨["E0", "VK_KHR_get_physical_device_properties2"], [], ⟨1, 0, 0⟩⟩
    ⟨⟨1, 0, 0⟩, (1, 0), [0], []⟩ rfl rfl
  exact ⟨happ.1 0 (List.mem_singleton.mpr rfl), happ.2.2.1 rfl rfl, happ.2.2.2.1⟩

theorem mem_of_contains_eq_true {l : List String} {a : String}
    (h : l.contains a = true) : a ∈ l := by
  simpa [List.contains] using h

/-- C9 counterexample: a caller request containing extension id 0 twice
passes validation and hands the native create call the name array
`["ExtA", "ExtA"]` — the list given to the native call is not
deduplicated. -/
theorem native_name_list_not_deduplicated_cex :
    compileInstanceCreateInfo
        ["ExtA", "VK_KHR_get_physical_device_properties2"] [] 1
        ⟨⟨1, 0, 0⟩, [], ["ExtA"]⟩ ⟨[0, 0], [], ⟨1, 0, 0⟩⟩ =
      .ok ⟨["ExtA", "ExtA"], [], ⟨1, 0, 0⟩⟩ ∧
    ¬ (["ExtA", "ExtA"] : List String).Nodup :=
  ⟨rfl, by decide⟩

/-- C9 amended: every layer/extension name handed to the native create
call is validated against the advertised set, the auto-enabled extension
is appended at most once, the device-level enabled list never acquires
duplicates (`enableExtension` refuses re-insertion), and the
instance-level name array is duplicate-free whenever the caller's request
is — but caller duplicates are passed through, not removed. -/
theorem native_name_list_validated_dedup_qualified
    (extNames layerNames : List String) (gpdp2 : Nat) (lib : Library)
    (ci : InstanceCreateInfo) (c : CompiledInstanceCreateInfo)
    (hc : compileInstanceCreateInfo extNames layerNames gpdp2 lib ci = .ok c) :
    (∀ name ∈ c.reqExtensionsNames, name ∈ lib.instanceExtensionProperties) ∧
    (∀ name ∈ c.reqLayerNames, name ∈ lib.layerProperties) ∧
    (extNames.Nodup → gpdp2 < extNames.length →
      (∀ id ∈ ci.requestedExtensions, id < extNames.length) →
      ci.requestedExtensions.Nodup → c.reqExtensionsNames.Nodup) ∧
    (layerNames.Nodup →
      (∀ id ∈ ci.requestedLayers, id < layerNames.length) →
      ci.requestedLayers.Nodup → c.reqLayerNames.Nodup) ∧
    (∀ (pd pd2 : PhysicalDevice) (id : Nat),
      pd.enableExtension extNames id = .ok pd2 →
      pd.enabledExtensions.Nodup → pd2.enabledExtensions.Nodup) := by
  have hkey : (∀ id ∈ ci.requestedLayers,
        lib.hasLayer layerNames id = true) ∧
      (∀ id ∈ ci.requestedExtensions,
        lib.hasInstanceExtension extNames id = true) ∧
      c = CompiledInstanceCreateInfo.mk
        ((augmentedRequestedExtensions extNames gpdp2 lib ci).map
          (idToName extNames))
        (ci.requestedLayers.map (idToName layerNames))
        ci.apiVersion := by
    unfold compileInstanceCreateInfo at hc
    by_cases hv : ApiVersion.lt lib.advertisedVersion ci.apiVersion = true
    · rw [if_pos hv] at hc
      cases hc
    · rw [if_neg hv] at hc
      cases hl : checkAllRequested (lib.hasLayer layerNames)
          (fun id => .layerUnsupported id (idToName layerNames id))
          ci.requestedLayers with
      | error e2 => rw [hl] at hc; cases hc
      | ok u =>
        cases u
        rw [hl] at hc
        cases he : checkAllRequested (lib.hasInstanceExtension extNames)
            (fun id => .extensionUnsupported id (idToName extNames id))
            ci.requestedExtensions with
        | error e2 => rw [he] at hc; cases hc
        | ok u2 =>
          cases u2
          rw [he] at hc
          exact ⟨(checkAllRequested_ok_iff _ _ _).mp hl,
            (checkAllRequested_ok_iff _ _ _).mp he,
            (Except.ok.inj hc).symm⟩
  have haug : ∀ id ∈ augmentedRequestedExtensions extNames gpdp2 lib ci,
      lib.hasInstanceExtension extNames id = true := by
    intro id hid
    unfold augmentedRequestedExtensions at hid
    by_cases hcond : (lib.hasInstanceExtension extNames gpdp2 &&
        !(ci.requestedExtensions.contains gpdp2)) = true
    · rw [if_pos hcond] at hid
      rcases List.mem_append.mp hid with hmem | hmem
      · exact hkey.2.1 id hmem
      · rw [List.mem_singleton.mp hmem]
        exact (Bool.and_eq_true _ _).mp hcond |>.1
    · rw [if_neg hcond] at hid
      exact hkey.2.1 id hid
  refine ⟨?_, ?_, ?_, ?_, ?_⟩
  · intro name hmem
    rw [hkey.2.2] at hmem
    rcases List.mem_map.mp hmem with ⟨id, hid, rfl⟩
    exact mem_of_contains_eq_true (haug id hid)
  · intro name hmem
    rw [hkey.2.2] at hmem
    rcases List.mem_map.mp hmem with ⟨id, hid, rfl⟩
    exact mem_of_contains_eq_true (hkey.1 id hid)
  · intro hnd hg hlt hreqnd
    rw [hkey.2.2]
    have haugnd : (augmentedRequestedExtensions extNames gpdp2 lib ci).Nodup ∧
        ∀ id ∈ augmentedRequestedExtensions extNames gpdp2 lib ci,
          id < extNames.length := by
      unfold augmentedRequestedExtensions
      by_cases hcond : (lib.hasInstanceExtension extNames gpdp2 &&
          !(ci.requestedExtensions.contains gpdp2)) = true
      · rw [if_pos hcond]
        have hnomem : gpdp2 ∉ ci.requestedExtensions := by
          intro hmem
          have hcontains : ci.requestedExtensions.contains gpdp2 = true := by
            simpa [List.contains] using hmem
          have := (Bool.and_eq_true _ _).mp hcond |>.2
          rw [hcontains] at this
          cases this
        constructor
        · rw [List.nodup_append]
          refine ⟨hreqnd, List.nodup_singleton gpdp2, ?_⟩
          intro a ha hb
          rw [List.mem_singleton.mp hb] at ha
          exact hnomem ha
        · intro id hid
          rcases List.mem_append.mp hid with hmem | hmem
          · exact hlt id hmem
          · rw [List.mem_singleton.mp hmem]
            exact hg
      · rw [if_neg hcond]
        exact ⟨hreqnd, hlt⟩
    refine List.Nodup.map_on ?_ haugnd.1
    intro x hx y hy hxy
    have h1 := findIdx?_getD_of_nodup extNames x hnd (haugnd.2 x hx)
    have h2 := findIdx?_getD_of_nodup extNames y hnd (haugnd.2 y hy)
    unfold idToName at hxy
    rw [hxy] at h1
    exact Option.some.inj (h1.symm.trans h2)
  · intro hnd hlt hreqnd
    rw [hkey.2.2]
    refine List.Nodup.map_on ?_ hreqnd
    intro x hx y hy hxy
    have h1 := findIdx?_getD_of_nodup layerNames x hnd (hlt x hx)
    have h2 := findIdx?_getD_of_nodup layerNames y hnd (hlt y hy)
    unfold idToName at hxy
    rw [hxy] at h1
    exact Option.some.inj (h1.symm.trans h2)
  · intro pd pd2 id happ hnd
    unfold PhysicalDevice.enableExtension at happ
    by_cases hsup : pd.extensionSupported id = true
    · rw [if_neg (by simp [hsup])] at happ
      by_cases hcont : pd.enabledExtensions.contains id = true
      · rw [if_pos hcont] at happ
        rw [← Except.ok.inj happ]
        exact hnd
      · rw [if_neg hcont] at happ
        have hrec := Except.ok.inj happ
        rw [← hrec]
        have hnomem : id ∉ pd.enabledExtensions := by
          intro hmem
          exact hcont (by simpa [List.contains] using hmem)
        rw [List.nodup_append]
        refine ⟨hnd, List.nodup_singleton id, ?_⟩
        intro a ha hb
        rw [List.mem_singleton.mp hb] at ha
        exact hnomem ha
    · rw [if_pos (by simp [Bool.not_eq_true] at hsup; simp [hsup])] at happ
      cases happ

/-- C9 amended witness: a duplicate-free request compiles to a validated,
duplicate-free native name array. -/
theorem native_name_list_validated_dedup_qualified_witness :
    ("E0" ∈ (["E0", "G"] : List String)) ∧
    (["E0", "G"] : List String).Nodup ∧
    (["L0"] : List String).Nodup := by
  have happ := native_name_list_validated_dedup_qualified ["E0", "G"] ["L0"] 1
    ⟨⟨1, 0, 0⟩, ["L0"], ["E0", "G"]⟩ ⟨[0], [0], ⟨1, 0, 0⟩⟩
    ⟨["E0", "G"], ["L0"], ⟨1, 0, 0⟩⟩ rfl
  exact ⟨happ.1 "E0" (by simp),
    happ.2.2.1 (by decide) (by decide) (by decide) (by decide),
    happ.2.2.2.1 (by decide) (by decide) (by decide)⟩

/-! ## Helper lemmas for the `Unique<T>` state machine -/

theorem getD_set_ne_none (l : List (Option Nat)) (i j : Nat) (v : Option Nat)
    (hne : i ≠ j) : (l.set i v).getD j none = l.getD j none := by
  rw [List.getD_eq_getElem?_getD, List.getD_eq_getElem?_getD,
    List.getElem?_set_ne hne]

theorem getD_set_self_none (l : List (Option Nat)) (i : Nat) (v : Option Nat)
    (hi : i < l.length) : (l.set i v).getD i none = v := by
  rw [List.getD_eq_getElem?_getD, List.getElem?_set_self hi]
  rfl

theorem getD_mem_of_lt (l : List (Option Nat)) (i : Nat) (hi : i < l.length) :
    l.getD i none ∈ l := by
  rw [List.getD_eq_getElem l none hi]
  exact List.getElem_mem hi

theorem count_set_indicator (l : List (Option Nat)) (i : Nat)
    (v a : Option Nat) (hi : i < l.length) :
    (l.set i v).count a + (if l.getD i none = a then 1 else 0) =
      l.count a + (if v = a then 1 else 0) := by
  induction l generalizing i with
  | nil => simp at hi
  | cons hd tl ih =>
    cases i with
    | zero =>
      simp only [List.set_cons_zero, List.count_cons, List.getD_cons_zero,
        beq_iff_eq]
      split_ifs <;> omega
    | succ n =>
      have hn : n < tl.length := by
        simp only [List.length_cons] at hi
        omega
      simp only [List.set_cons_succ, List.count_cons, List.getD_cons_succ,
        beq_iff_eq]
      have h := ih n hn
      split_ifs at h ⊢ <;> omega

theorem UniqueState.inv_init : UniqueState.init.Inv := by
  intro h
  refine ⟨?_, fun _ => ⟨?_, ?_⟩⟩ <;> simp [UniqueState.init]

theorem UniqueState.inv_step (s : UniqueState) (op : UniqueOp) (hs : s.Inv) :
    (s.step op).Inv := by
  cases op with
  | create =>
    intro h
    simp only [UniqueState.step, List.count_append]
    by_cases heq : h = s.next
    · subst heq
      have hz := (hs s.next).2 (Nat.le_refl _)
      have hone : List.count (some s.next) [some s.next] = 1 := by simp
      exact ⟨by omega, fun hle => by omega⟩
    · have hzero : List.count (some h) [some s.next] = 0 := by
        simp only [List.count_cons, List.count_nil, beq_iff_eq,
          Option.some.injEq]
        rw [if_neg (fun hcontra => heq hcontra.symm)]
      have hbase := hs h
      refine ⟨by omega, fun hle => ?_⟩
      have hz := hbase.2 (by omega)
      omega
  | move src dst =>
    by_cases hg : src < s.cells.length ∧ dst < s.cells.length ∧ src ≠ dst
    · obtain ⟨hsrc, hdst, hne⟩ := hg
      intro h
      simp only [UniqueState.step,
        if_pos (⟨hsrc, hdst, hne⟩ :
          src < s.cells.length ∧ dst < s.cells.length ∧ src ≠ dst)]
      have E1 := count_set_indicator s.cells dst (s.cells.getD src none)
        (some h) hdst
      have hlen : src < (s.cells.set dst (s.cells.getD src none)).length := by
        rw [List.length_set]
        exact hsrc
      have E2 := count_set_indicator (s.cells.set dst (s.cells.getD src none))
        src none (some h) hlen
      rw [getD_set_ne_none _ _ _ _ (Ne.symm hne)] at E2
      have hni : (if (none : Option Nat) = some h then 1 else 0) = 0 := by simp
      rw [hni] at E2
      have hbase := hs h
      cases hdv : s.cells.getD dst none with
      | none =>
        simp only [hdv] at E1 ⊢
        rw [hni] at E1
        refine ⟨?_, fun hle => ?_⟩
        · have h1 := hbase.1
          split_ifs at E1 E2 <;> omega
        · have hz := hbase.2 hle
          have hsv : s.cells.getD src none ≠ some h := by
            intro hcontra
            have hmem := getD_mem_of_lt s.cells src hsrc
            rw [hcontra] at hmem
            exact absurd hmem (List.count_eq_zero.mp hz.1)
          rw [if_neg hsv] at E1 E2
          omega
      | some d =>
        simp only [hdv] at E1 ⊢
        have hind : (if (some d : Option Nat) = some h then 1 else 0) =
            (if d = h then 1 else 0) := by
          by_cases hx : d = h
          · subst hx; simp
          · simp [hx]
        rw [hind] at E1
        have hcnt : List.count h (s.destroyLog ++ [d]) =
            List.count h s.destroyLog + (if d = h then 1 else 0) := by
          rw [List.count_append]
          simp only [List.count_cons, List.count_nil, beq_iff_eq,
            Nat.zero_add]
        refine ⟨?_, fun hle => ?_⟩
        · rw [hcnt]
          have h1 := hbase.1
          split_ifs at E1 E2 ⊢ <;> omega
        · have hz := hbase.2 hle
          have hsv : s.cells.getD src none ≠ some h := by
            intro hcontra
            have hmem := getD_mem_of_lt s.cells src hsrc
            rw [hcontra] at hmem
            exact absurd hmem (List.count_eq_zero.mp hz.1)
          have hdmem := getD_mem_of_lt s.cells dst hdst
          rw [hdv] at hdmem
          have hdh : d ≠ h := by
            intro hx
            rw [hx] at hdmem
            exact absurd hdmem (List.count_eq_zero.mp hz.1)
          rw [if_neg hsv] at E1 E2
          rw [if_neg hdh] at E1
          rw [hcnt, if_neg hdh]
          omega
    · intro h
      simp only [UniqueState.step, if_neg hg]
      exact hs h
  | destroy cell =>
    by_cases hcell : cell < s.cells.length
    · intro h
      simp only [UniqueState.step, if_pos hcell]
      cases hget : s.cells.getD cell none with
      | none =>
        simp only [hget]
        exact hs h
      | some h0 =>
        simp only [hget]
        have E := count_set_indicator s.cells cell none (some h) hcell
        rw [hget] at E
        have hni : (if (none : Option Nat) = some h then 1 else 0) = 0 := by
          simp
        rw [hni] at E
        have hind : (if (some h0 : Option Nat) = some h then 1 else 0) =
            (if h0 = h then 1 else 0) := by
          by_cases hx : h0 = h
          · subst hx; simp
          · simp [hx]
        rw [hind] at E
        have hcnt : List.count h (s.destroyLog ++ [h0]) =
            List.count h s.destroyLog + (if h0 = h then 1 else 0) := by
          rw [List.count_append]
          simp only [List.count_cons, List.count_nil, beq_iff_eq,
            Nat.zero_add]
        have hbase := hs h
        refine ⟨?_, fun hle => ?_⟩
        · rw [hcnt]
          have h1 := hbase.1
          split_ifs at E ⊢ <;> omega
        · have hz := hbase.2 hle
          have hmem := getD_mem_of_lt s.cells cell hcell
          rw [hget] at hmem
          have hneq : h0 ≠ h := by
            intro hx
            rw [hx] at hmem
            exact absurd hmem (List.count_eq_zero.mp hz.1)
          rw [hcnt, if_neg hneq]
          rw [if_neg hneq] at E
          omega
    · intro h
      simp only [UniqueState.step, if_neg hcell]
      exact hs h

theorem UniqueState.inv_run (ops : List UniqueOp) :
    (UniqueState.run ops).Inv := by
  have general : ∀ (l : List UniqueOp) (s : UniqueState), s.Inv →
      (l.foldl UniqueState.step s).Inv := by
    intro l
    induction l with
    | nil => intro s hsv; exact hsv
    | cons hd tl ih =>
      intro s hsv
      exact ih (s.step hd) (UniqueState.inv_step s hd hsv)
  exact general ops UniqueState.init UniqueState.inv_init

theorem step_destroy_none (t : UniqueState) (cell : Nat)
    (hget : t.cells.getD cell none = none) :
    t.step (.destroy cell) = t := by
  by_cases hc : cell < t.cells.length
  · simp only [UniqueState.step]
    rw [if_pos hc, hget]
  · simp only [UniqueState.step]
    rw [if_neg hc]

theorem step_destroy_some (t : UniqueState) (cell h0 : Nat)
    (hc : cell < t.cells.length) (hget : t.cells.getD cell none = some h0) :
    (t.step (.destroy cell)).destroyLog = t.destroyLog ++ [h0] := by
  simp only [UniqueState.step]
  rw [if_pos hc, hget]

/-- C7: Ownership state machine of `Unique<T>`. After `b = move(a)` the
source cell holds null and destroying it invokes no native destroy call,
while destroying the destination invokes the deleter exactly once, on the
moved handle; and over every execution of the machine the deleter runs at
most once per handle, and only on handles that were actually created
(non-null). -/
theorem unique_ownership_state_machine
    (ops : List UniqueOp) (s : UniqueState) (src dst h : Nat)
    (hsrc : src < s.cells.length) (hdst : dst < s.cells.length)
    (hne : src ≠ dst) (hown : s.cells.getD src none = some h) :
    (∀ hh : Nat, (UniqueState.run ops).destroyLog.count hh ≤ 1 ∧
      (hh ∈ (UniqueState.run ops).destroyLog →
        hh < (UniqueState.run ops).next)) ∧
    (s.step (.move src dst)).cells.getD src none = none ∧
    ((s.step (.move src dst)).step (.destroy src)).destroyLog =
      (s.step (.move src dst)).destroyLog ∧
    ((s.step (.move src dst)).step (.destroy dst)).destroyLog =
      (s.step (.move src dst)).destroyLog ++ [h] := by
  have hcells : (s.step (.move src dst)).cells =
      (s.cells.set dst (s.cells.getD src none)).set src none := by
    simp only [UniqueState.step,
      if_pos (⟨hsrc, hdst, hne⟩ :
        src < s.cells.length ∧ dst < s.cells.length ∧ src ≠ dst)]
  have hgetsrc : (s.step (.move src dst)).cells.getD src none = none := by
    rw [hcells]
    exact getD_set_self_none _ _ _ (by rw [List.length_set]; exact hsrc)
  have hgetdst : (s.step (.move src dst)).cells.getD dst none = some h := by
    rw [hcells,
      getD_set_ne_none (s.cells.set dst (s.cells.getD src none)) src dst
        none hne,
      getD_set_self_none _ _ _ hdst, hown]
  have hlen : (s.step (.move src dst)).cells.length = s.cells.length := by
    rw [hcells, List.length_set, List.length_set]
  refine ⟨?_, hgetsrc, ?_, ?_⟩
  · intro hh
    have hb := UniqueState.inv_run ops hh
    refine ⟨by omega, fun hmem => ?_⟩
    by_contra hlt
    push_neg at hlt
    have hz := hb.2 hlt
    exact absurd hmem (List.count_eq_zero.mp hz.2)
  · rw [step_destroy_none (s.step (.move src dst)) src hgetsrc]
  · exact step_destroy_some (s.step (.move src dst)) dst h
      (by rw [hlen]; exact hdst) hgetdst

/-- C7 witness: two created objects, a move assignment `cell1 = move(cell0)`,
then destruction of both cells — the moved-from cell is null, its
destruction emits no destroy call, destroying the destination emits
exactly one, and the whole trace destroys each handle at most once. -/
theorem unique_ownership_state_machine_witness :
    (UniqueState.run
        [.create, .create, .move 0 1, .destroy 0, .destroy 1]).destroyLog.count
      0 ≤ 1 ∧
    ((UniqueState.run [.create, .create]).step (.move 0 1)).cells.getD 0
      none = none ∧
    (((UniqueState.run [.create, .create]).step (.move 0 1)).step
      (.destroy 0)).destroyLog =
      ((UniqueState.run [.create, .create]).step (.move 0 1)).destroyLog ∧
    (((UniqueState.run [.create, .create]).step (.move 0 1)).step
      (.destroy 1)).destroyLog =
      ((UniqueState.run [.create, .create]).step (.move 0 1)).destroyLog ++
        [0] := by
  have happ := unique_ownership_state_machine
    [.create, .create, .move 0 1, .destroy 0, .destroy 1]
    (UniqueState.run [.create, .create]) 0 1 0 (by decide) (by decide)
    (by decide) (by decide)
  exact ⟨(happ.1 0).1, happ.2.1, happ.2.2.1, happ.2.2.2⟩

end Vkw
